import Mathlib

/-!
Verification development for the game position server (`src/app.py`).

The source is a FastAPI WebSocket ("push model") presence server with a
module-level registry `rooms : Dict[str, Dict[str, Player]]`, per-room
`asyncio.Lock`s, a `broadcast` fanout with best-effort failure pruning, and a
per-connection handler loop `ws_endpoint`.

Shallow embedding conventions:
- Python dicts become association lists (`List (κ × α)`) with dict semantics:
  `alookup` finds the first binding, `ainsert` replaces in place or appends
  (insertion order preserved, as in CPython), `aerase` removes the key.
- WebSocket connections are identified by a natural-number handle; the handle
  doubles as the connection identifier in the trace of events.
- Coordinates and timestamps are modelled as integers: no claim depends on
  floating-point rounding, only on whether `float(...)` succeeds and on the
  propagation of the stored value.  A JSON field value that `float()` rejects
  (raising `ValueError`) is modelled by `FVal.bad`.
- Delivery failures (`await ws.send_text` raising) are an input of the model:
  each trace event carries the set of connection handles whose deliveries fail
  during that event.  The source's best-effort recovery of the failed socket
  (`task.get_coro().cr_frame.f_locals.get("ws")` in `broadcast`) inspects the
  frame of a coroutine that has already completed; CPython sets `cr_frame` to
  `None` once a coroutine finishes, so the attribute access raises, the bare
  `except` fires, and the recovered value is always `None`.  The model
  reflects this: the failure list holds one `none` per failed send, the
  socket-membership test never matches, and the pruning loop is dead code.
- Handlers between suspension points run atomically under asyncio's
  single-threaded cooperative scheduler; the model executes each inbound
  event atomically.  Lock discipline is tracked structurally: every mutation
  of the registry emits a `MutEvent` recording whether the source performs
  that mutation inside `async with get_lock(room_id)`.
- An exception escaping the handler body (e.g. `ValueError` from `float`)
  ends the connection loop; the `finally` block then runs the disconnect
  cleanup.  The model performs that cleanup at the same point.
-/

namespace GamePos

/-- First-match lookup in an association list (Python `dict.get`). -/
def alookup {κ α : Type} [DecidableEq κ] : List (κ × α) → κ → Option α
  | [], _ => none
  | e :: t, k => if e.1 = k then some e.2 else alookup t k

/-- Insert with in-place replacement (Python `d[k] = v`): the first binding of
`k` is replaced keeping its position, otherwise the binding is appended. -/
def ainsert {κ α : Type} [DecidableEq κ] : List (κ × α) → κ → α → List (κ × α)
  | [], k, v => [(k, v)]
  | e :: t, k, v => if e.1 = k then (k, v) :: t else e :: ainsert t k v

/-- Key removal (Python `d.pop(k, None)`). -/
def aerase {κ α : Type} [DecidableEq κ] : List (κ × α) → κ → List (κ × α)
  | [], _ => []
  | e :: t, k => if e.1 = k then aerase t k else e :: aerase t k

/-- Number of bindings of key `k` (on states reachable from the empty dict
this is 0 or 1; stated generally for the lemmas). -/
def countKey {κ α : Type} [DecidableEq κ] (l : List (κ × α)) (k : κ) : Nat :=
  (l.map Prod.fst).count k

/-- The keys of the association list are pairwise distinct (always true of a
Python dict; an explicit hypothesis on states quantified generally). -/
def keysNodup {κ α : Type} (l : List (κ × α)) : Prop :=
  (l.map Prod.fst).Nodup

instance {κ α : Type} [DecidableEq κ] (l : List (κ × α)) : Decidable (keysNodup l) := by
  unfold keysNodup; infer_instance

/-- `dataclass Player` from `src/app.py` (the `websocket` field is the
connection handle). -/
structure Player where
  player_id : String
  name : String
  shape : String
  color : String
  x : Int
  y : Int
  websocket : Nat
deriving DecidableEq

/-- The member set of one room: `rooms[room_id] : Dict[str, Player]`. -/
abbrev Members := List (String × Player)

/-- The registry: `rooms : Dict[str, Dict[str, Player]]`. -/
abbrev RoomMap := List (String × Members)

/-- The per-connection locals of `ws_endpoint`: `room_id` and `player_id`,
both `Optional[str]`, assigned on every join attempt before validation. -/
structure Conn where
  room : Option String
  player : Option String
deriving DecidableEq

/-- Global server state: the room registry plus each live connection's bound
locals. -/
structure Srv where
  rooms : RoomMap
  conns : List (Nat × Conn)
deriving DecidableEq

def Srv.start : Srv := ⟨[], []⟩

/-- A JSON field value as far as `float(...)` is concerned: either a value it
converts (carried as the converted number) or one on which it raises. -/
inductive FVal where
  | num (n : Int)
  | bad
deriving DecidableEq

/-- `float(v)`: `some` of the numeric value, or `none` for `ValueError`. -/
def floatOf : FVal → Option Int
  | .num n => some n
  | .bad => none

/-- Python truthiness of the `Optional[str]` locals: `None` and `""` are
falsy. -/
def truthy : Option String → Bool
  | none => false
  | some s => if s = "" then false else true

/-- `if skip and pid == skip` in `broadcast`: the recipient is skipped only
when `skip` is truthy and equal to the recipient's key. -/
def skipMatch (skip : Option String) (pid : String) : Bool :=
  match skip with
  | none => false
  | some s => if s = "" then false else decide (pid = s)

/-- `get_lock(room_id)` from `src/app.py` lines 37-42: return the room's lock
from `room_locks`, creating it on first reference.  Lock identities are
modelled as naturals; `fresh` stands for the `asyncio.Lock()` allocation.
There is no `await` between the lookup and the store, so under the
single-threaded cooperative scheduler the check-and-insert runs atomically,
modelled as one pure function on the lock table. -/
def get_lock (locks : List (String × Nat)) (room_id : String) (fresh : Nat) :
    Nat × List (String × Nat) :=
  match alookup locks room_id with
  | some l => (l, locks)
  | none => (fresh, ainsert locks room_id fresh)

/-- One JSON message delivered to a client, as far as the claims observe it. -/
inductive Payload where
  | stateMsg (room : String) (you : String) (players : List Player)
  | errorMsg (message : String)
  | updateMsg (player_id : String) (x y : Int)
  | updateFull (player_id name shape color : String) (x y : FVal)
  | leaveMsg (player_id : String)
deriving DecidableEq

/-- A successful delivery: the recipient's player key as known at send time
(`""` for the self-addressed error reply), the recipient's connection handle,
and the payload. -/
structure Delivery where
  pid : String
  ws : Nat
  payload : Payload
deriving DecidableEq

/-- The mutation sites of the registry in `src/app.py`. -/
inductive MutSite where
  | roomCreate
  | joinInsert
  | updateXY
  | cleanupPop
  | roomDelete
  | broadcastPrune
deriving DecidableEq

/-- A mutation of the registry, tagged with the room it touches, its source
location, and whether the source performs it while holding
`get_lock(room_id)`. -/
structure MutEvent where
  room : String
  site : MutSite
  underLock : Bool
deriving DecidableEq

/-- Result of a broadcast: the (possibly failure-pruned) registry, the
successful deliveries, and the mutation events. -/
structure BOut where
  rooms : RoomMap
  log : List Delivery
  muts : List MutEvent
deriving DecidableEq

/-- Result of one handler step. -/
structure StepOut where
  srv : Srv
  log : List Delivery
  muts : List MutEvent
deriving DecidableEq

/-- `broadcast(room_id, payload, skip)` from `src/app.py` lines 49-76: send to
every member except `skip`; for each failed send, try to recover the target
socket from the completed coroutine's frame and pop every player whose socket
was recovered.  `f` is the set of connection handles whose delivery fails.
The recovery `task.get_coro().cr_frame.f_locals.get("ws")` (line 67) runs on
a coroutine that has already completed, whose `cr_frame` is `None` in
CPython, so each recovered entry is `none` (the bare `except` swallows the
`AttributeError`); consequently `p.websocket in failures` never holds,
`stale_ids` is empty, and the pops on line 76 never execute.  The pops, had
they executed, would run outside any `async with get_lock(...)` block, hence
`underLock := false` on the (never-emitted) prune events. -/
def broadcastRun (rooms : RoomMap) (rid : String) (payload : Payload)
    (skip : Option String) (f : List Nat) : BOut :=
  let players : Members := (alookup rooms rid).getD []
  let sends : Members := players.filter (fun e => !(skipMatch skip e.1))
  if sends = [] then ⟨rooms, [], []⟩
  else
    let delivered : List Delivery := (sends.filter (fun e => decide (e.2.websocket ∉ f))).map
      (fun e => ⟨e.1, e.2.websocket, payload⟩)
    let failures : List (Option Nat) := (sends.filter (fun e => decide (e.2.websocket ∈ f))).map
      (fun _ => none)
    if failures = [] then ⟨rooms, delivered, []⟩
    else
      let players2 : Members := (alookup rooms rid).getD []
      let staleIds : List String := (players2.filter
        (fun e => decide (some e.2.websocket ∈ failures))).map (fun e => e.1)
      let members2 : Members := players2.filter (fun e => decide (e.1 ∉ staleIds))
      let rooms2 : RoomMap := match alookup rooms rid with
        | none => rooms
        | some _ => ainsert rooms rid members2
      ⟨rooms2, delivered, staleIds.map (fun _ => ⟨rid, .broadcastPrune, false⟩)⟩

/-- The locked section of the `finally` block (lines 159-164): pop the player
if present; if the member set becomes empty, pop the room. -/
def leavePop (rooms : RoomMap) (r p : String) : RoomMap × List MutEvent :=
  match alookup rooms r with
  | none => (rooms, [])
  | some members =>
    if members ≠ [] ∧ (alookup members p).isSome then
      let members2 := aerase members p
      if members2 = [] then
        (aerase rooms r, [⟨r, .cleanupPop, true⟩, ⟨r, .roomDelete, true⟩])
      else
        (ainsert rooms r members2, [⟨r, .cleanupPop, true⟩])
    else (rooms, [])

/-- The `finally` block of `ws_endpoint` (lines 157-165): if the connection's
locals are truthy, pop the player (and empty room) under the lock, then
broadcast a leave notification (unconditionally, skip=None). -/
def cleanupRun (st : Srv) (c : Nat) (f : List Nat) : StepOut :=
  match alookup st.conns c with
  | none => ⟨st, [], []⟩
  | some conn =>
    if truthy conn.room ∧ truthy conn.player then
      let r := conn.room.getD ""
      let p := conn.player.getD ""
      let lp := leavePop st.rooms r p
      let b := broadcastRun lp.1 r (.leaveMsg p) none f
      ⟨⟨b.rooms, st.conns⟩, b.log, lp.2 ++ b.muts⟩
    else ⟨st, [], []⟩

/-- The fields of a `{type: "join", ...}` message. -/
structure JoinMsg where
  room : Option String
  player_id : Option String
  name : Option String
  shape : Option String
  color : Option String
  x : Option FVal
  y : Option FVal
deriving DecidableEq

/-- The fields of a `{type: "update", ...}` message. -/
structure UpdateMsg where
  x : Option FVal
  y : Option FVal
deriving DecidableEq

/-- The `join` branch of `ws_endpoint` (lines 106-140).  The locals are
assigned from the message before validation; a missing/empty id yields the
error reply and leaves the registry untouched; otherwise the room is created
by `setdefault` before the coordinate parses, the record is inserted
(replacing any prior record for the id), the state snapshot is sent to the
joiner, and the join is broadcast (type "update", raw coordinate values) to
the rest of the room.  A `ValueError` from `float`, or a failed send to the
joiner itself, ends the loop and runs the disconnect cleanup. -/
def joinRun (st : Srv) (c : Nat) (m : JoinMsg) (f : List Nat) : StepOut :=
  let conns1 := ainsert st.conns c ⟨m.room, m.player_id⟩
  let st1 : Srv := ⟨st.rooms, conns1⟩
  if truthy m.room ∧ truthy m.player_id then
    let r := m.room.getD ""
    let p := m.player_id.getD ""
    let setd : RoomMap × List MutEvent := match alookup st1.rooms r with
      | some _ => (st1.rooms, [])
      | none => (ainsert st1.rooms r [], [⟨r, .roomCreate, true⟩])
    let st2 : Srv := ⟨setd.1, conns1⟩
    match floatOf (m.x.getD (.num 120)) with
    | none =>
      let cl := cleanupRun st2 c f
      ⟨cl.srv, cl.log, setd.2 ++ cl.muts⟩
    | some xv =>
      match floatOf (m.y.getD (.num 120)) with
      | none =>
        let cl := cleanupRun st2 c f
        ⟨cl.srv, cl.log, setd.2 ++ cl.muts⟩
      | some yv =>
        let pr : Player :=
          ⟨p, m.name.getD "player", m.shape.getD "square", m.color.getD "#00ff00", xv, yv, c⟩
        let members := (alookup setd.1 r).getD []
        let rooms2 := ainsert setd.1 r (ainsert members p pr)
        let st3 : Srv := ⟨rooms2, conns1⟩
        let muts1 := setd.2 ++ [⟨r, .joinInsert, true⟩]
        if c ∈ f then
          let cl := cleanupRun st3 c f
          ⟨cl.srv, cl.log, muts1 ++ cl.muts⟩
        else
          let snap := ((alookup rooms2 r).getD []).map Prod.snd
          let b := broadcastRun rooms2 r
            (.updateFull p pr.name pr.shape pr.color (m.x.getD (.num 120)) (m.y.getD (.num 120)))
            (some p) f
          ⟨⟨b.rooms, conns1⟩, Delivery.mk p c (.stateMsg r p snap) :: b.log, muts1 ++ b.muts⟩
  else
    if c ∈ f then cleanupRun st1 c f
    else ⟨st1, [⟨"", c, .errorMsg "room and player_id required"⟩], []⟩

/-- The `update` branch of `ws_endpoint` (lines 142-154): guarded by the
truthiness of the connection locals (silently ignored otherwise), parses both
coordinates (a `ValueError` ends the loop and runs the cleanup), mutates the
record under the lock only when the player is present, then broadcasts
unconditionally. -/
def updateRun (st : Srv) (c : Nat) (m : UpdateMsg) (f : List Nat) : StepOut :=
  let conn := (alookup st.conns c).getD ⟨none, none⟩
  if truthy conn.room ∧ truthy conn.player then
    let r := conn.room.getD ""
    let p := conn.player.getD ""
    match floatOf (m.x.getD (.num 0)) with
    | none => cleanupRun st c f
    | some xv =>
      match floatOf (m.y.getD (.num 0)) with
      | none => cleanupRun st c f
      | some yv =>
        let upd : RoomMap × List MutEvent := match alookup st.rooms r with
          | none => (st.rooms, [])
          | some members =>
            match alookup members p with
            | none => (st.rooms, [])
            | some pl =>
              (ainsert st.rooms r (ainsert members p { pl with x := xv, y := yv }),
               [⟨r, .updateXY, true⟩])
        let b := broadcastRun upd.1 r (.updateMsg p xv yv) (some p) f
        ⟨⟨b.rooms, st.conns⟩, b.log, upd.2 ++ b.muts⟩
  else ⟨st, [], []⟩

/-- One inbound event: a parsed `join` message, a parsed `update` message, or
the connection closing (`WebSocketDisconnect`).  `f` is the set of connection
handles whose deliveries fail while this event is being handled. -/
inductive Event where
  | join (c : Nat) (m : JoinMsg) (f : List Nat)
  | upd (c : Nat) (m : UpdateMsg) (f : List Nat)
  | disconnect (c : Nat) (f : List Nat)
deriving DecidableEq

/-- Dispatch one event to the corresponding handler code path. -/
def step (st : Srv) : Event → StepOut
  | .join c m f => joinRun st c m f
  | .upd c m f => updateRun st c m f
  | .disconnect c f => cleanupRun st c f

/-- Run a trace of events from a state, concatenating the delivery and
mutation logs. -/
def runTrace : Srv → List Event → StepOut
  | st, [] => ⟨st, [], []⟩
  | st, e :: t =>
    let o := step st e
    let o2 := runTrace o.srv t
    ⟨o2.srv, o.log ++ o2.log, o.muts ++ o2.muts⟩

/-- A pull-model player record.  Modelled from the spec: the pull-model
registry is not in `src/` (the repository source contains only the push
WebSocket transport); per the spec §3/§4.1 its record carries the display
attributes, the position, and `last_seen`, set on join and on every update. -/
structure PullRecord where
  player_id : String
  name : String
  shape : String
  color : String
  x : Int
  y : Int
  last_seen : Int
deriving DecidableEq

/-- The pull-model registry: room id to member map. -/
abbrev PullMap := List (String × List (String × PullRecord))

/-- Modelled from the spec: `SweepStale(room_id, ttl)` is not in `src/`.
Per spec §4.1 it "removes every record whose `last_seen` is older than
`now - ttl`; deletes the room if it becomes empty". -/
def sweepStale (rooms : PullMap) (rid : String) (ttl now : Int) : PullMap :=
  match alookup rooms rid with
  | none => rooms
  | some ms =>
    let ms2 := ms.filter (fun e => decide (¬ e.2.last_seen < now - ttl))
    if ms2 = [] then aerase rooms rid else ainsert rooms rid ms2

/-- Modelled from the spec: the pull-model `state` read is not in `src/`.
Per spec §4.4, "`state` queries always sweep staleness first"; the result
view is the member map after the sweep. -/
def pullStateMembers (rooms : PullMap) (rid : String) (ttl now : Int) :
    List (String × PullRecord) :=
  (alookup (sweepStale rooms rid ttl now) rid).getD []

/-! ### Association-list lemmas -/

theorem alookup_ainsert_self {κ α : Type} [DecidableEq κ] (l : List (κ × α)) (k : κ) (v : α) :
    alookup (ainsert l k v) k = some v := by
  induction l with
  | nil => simp [ainsert, alookup]
  | cons e t ih =>
    by_cases h : e.1 = k
    · simp [ainsert, h, alookup]
    · simp [ainsert, h, alookup, ih]

theorem alookup_ainsert_ne {κ α : Type} [DecidableEq κ] (l : List (κ × α)) (k k2 : κ) (v : α)
    (h : k2 ≠ k) : alookup (ainsert l k v) k2 = alookup l k2 := by
  have hkk : ¬ (k = k2) := fun hx => h hx.symm
  induction l with
  | nil => simp [ainsert, alookup, hkk]
  | cons e t ih =>
    simp only [ainsert]
    by_cases he : e.1 = k
    · rw [if_pos he]
      have he2 : ¬ (e.1 = k2) := by rw [he]; exact hkk
      simp [alookup, hkk, he2]
    · rw [if_neg he]
      simp only [alookup]
      by_cases he2 : e.1 = k2
      · simp [he2]
      · simp [he2, ih]

theorem alookup_aerase_self {κ α : Type} [DecidableEq κ] (l : List (κ × α)) (k : κ) :
    alookup (aerase l k) k = none := by
  induction l with
  | nil => rfl
  | cons e t ih =>
    by_cases h : e.1 = k
    · simpa [aerase, h] using ih
    · simpa [aerase, h, alookup] using ih

theorem alookup_aerase_ne {κ α : Type} [DecidableEq κ] (l : List (κ × α)) (k k2 : κ)
    (h : k2 ≠ k) : alookup (aerase l k) k2 = alookup l k2 := by
  induction l with
  | nil => rfl
  | cons e t ih =>
    simp only [aerase]
    by_cases he : e.1 = k
    · rw [if_pos he]
      have he2 : ¬ (e.1 = k2) := fun hx => h (hx ▸ he)
      simp [alookup, he2, ih]
    · rw [if_neg he]
      simp only [alookup]
      by_cases he2 : e.1 = k2
      · simp [he2]
      · simp [he2, ih]

theorem alookup_none_filter {κ α : Type} [DecidableEq κ] (l : List (κ × α)) (k : κ)
    (q : κ × α → Bool) (h : alookup l k = none) : alookup (l.filter q) k = none := by
  induction l with
  | nil => simp [alookup]
  | cons e t ih =>
    rw [alookup] at h
    by_cases he : e.1 = k
    · simp [he] at h
    · rw [if_neg he] at h
      by_cases hq : q e
      · simpa [List.filter_cons, hq, alookup, he] using ih h
      · simpa [List.filter_cons, hq] using ih h

theorem alookup_mem {κ α : Type} [DecidableEq κ] (l : List (κ × α)) (k : κ) (v : α)
    (h : alookup l k = some v) : (k, v) ∈ l := by
  induction l with
  | nil => simp [alookup] at h
  | cons e t ih =>
    rw [alookup] at h
    by_cases he : e.1 = k
    · rw [if_pos he] at h
      injection h with h2
      have hev : e = (k, v) := Prod.ext he h2
      rw [← hev]
      exact List.mem_cons_self _ _
    · rw [if_neg he] at h
      exact List.mem_cons_of_mem _ (ih h)

theorem alookup_isSome_iff_mem {κ α : Type} [DecidableEq κ] (l : List (κ × α)) (k : κ) :
    (alookup l k).isSome ↔ k ∈ l.map Prod.fst := by
  induction l with
  | nil => simp [alookup]
  | cons e t ih =>
    rw [alookup, List.map_cons, List.mem_cons]
    by_cases he : e.1 = k
    · simp [he]
    · have hne : ¬ (k = e.1) := fun hx => he hx.symm
      simp [he, hne, ih]

theorem keys_ainsert {κ α : Type} [DecidableEq κ] (l : List (κ × α)) (k : κ) (v : α) :
    (ainsert l k v).map Prod.fst =
      if (alookup l k).isSome then l.map Prod.fst else l.map Prod.fst ++ [k] := by
  induction l with
  | nil => simp [ainsert, alookup]
  | cons e t ih =>
    by_cases he : e.1 = k
    · simp [ainsert, he, alookup]
    · simp only [ainsert, if_neg he, List.map_cons, alookup, ih]
      by_cases hs : (alookup t k).isSome
      · simp [hs, he]
      · simp [hs, he]

theorem length_ainsert {κ α : Type} [DecidableEq κ] (l : List (κ × α)) (k : κ) (v : α) :
    (ainsert l k v).length = if (alookup l k).isSome then l.length else l.length + 1 := by
  have h := congrArg List.length (keys_ainsert l k v)
  rw [List.length_map, apply_ite List.length] at h
  simpa using h

theorem countKey_ainsert_self {κ α : Type} [DecidableEq κ] (l : List (κ × α)) (k : κ) (v : α) :
    countKey (ainsert l k v) k = max 1 (countKey l k) := by
  unfold countKey
  rw [keys_ainsert]
  by_cases hs : (alookup l k).isSome
  · rw [if_pos hs]
    have hk : k ∈ l.map Prod.fst := (alookup_isSome_iff_mem l k).mp hs
    have h1 : 0 < (l.map Prod.fst).count k := List.count_pos_iff.mpr hk
    omega
  · rw [if_neg hs]
    have hk : k ∉ l.map Prod.fst := fun hm => hs ((alookup_isSome_iff_mem l k).mpr hm)
    rw [List.count_append]
    simp [List.count_eq_zero_of_not_mem hk]

theorem countKey_ainsert_ne {κ α : Type} [DecidableEq κ] (l : List (κ × α)) (k k2 : κ) (v : α)
    (h : k2 ≠ k) : countKey (ainsert l k v) k2 = countKey l k2 := by
  unfold countKey
  rw [keys_ainsert]
  by_cases hs : (alookup l k).isSome
  · rw [if_pos hs]
  · rw [if_neg hs, List.count_append]
    simp [List.count_singleton', h]

theorem countKey_eq_one {κ α : Type} [DecidableEq κ] (l : List (κ × α)) (k : κ)
    (hnd : keysNodup l) (hm : (alookup l k).isSome) : countKey l k = 1 :=
  List.count_eq_one_of_mem hnd ((alookup_isSome_iff_mem l k).mp hm)

theorem alookup_filter_out {κ α : Type} [DecidableEq κ] (l : List (κ × α)) (k : κ)
    (ids : List κ) (h : k ∈ ids) :
    alookup (l.filter (fun e => decide (e.1 ∉ ids))) k = none := by
  induction l with
  | nil => simp [alookup]
  | cons e t ih =>
    by_cases hk : e.1 ∈ ids
    · simpa [List.filter_cons, hk] using ih
    · have hne : e.1 ≠ k := fun hx => hk (hx ▸ h)
      simpa [List.filter_cons, hk, alookup, hne] using ih

theorem countKey_filter_ne {κ α : Type} [DecidableEq κ] (l : List (κ × α)) (p q : κ)
    (h : q ≠ p) :
    countKey (l.filter (fun e => !(decide (e.1 = p)))) q = countKey l q := by
  induction l with
  | nil => rfl
  | cons e t ih =>
    simp only [countKey] at ih ⊢
    rw [List.filter_cons]
    by_cases he : e.1 = p
    · have hq : ¬ (q = e.1) := fun hx => h (hx.trans he)
      simp only [he, decide_True, Bool.not_true, if_neg (by simp : ¬ (false = true))]
      rw [List.map_cons, List.count_cons_of_ne hq]
      exact ih
    · simp [he, List.count_cons, ih]

/-! ### Broadcast lemmas -/

theorem skipMatch_some (p k : String) (hp : p ≠ "") :
    skipMatch (some p) k = decide (k = p) := by
  simp [skipMatch, hp]

theorem broadcastRun_nofail (rooms : RoomMap) (rid : String) (payload : Payload)
    (skip : Option String) :
    broadcastRun rooms rid payload skip [] =
      ⟨rooms,
       (((alookup rooms rid).getD []).filter (fun e => !(skipMatch skip e.1))).map
         (fun e => ⟨e.1, e.2.websocket, payload⟩),
       []⟩ := by
  by_cases hs : ((alookup rooms rid).getD []).filter (fun e => !(skipMatch skip e.1)) = []
  · simp [broadcastRun, hs]
  · simp [broadcastRun, hs]

theorem broadcastRun_log_payload (rooms : RoomMap) (rid : String) (payload : Payload)
    (skip : Option String) (f : List Nat) (d : Delivery)
    (h : d ∈ (broadcastRun rooms rid payload skip f).log) : d.payload = payload := by
  simp only [broadcastRun] at h
  split at h
  · simp at h
  · split at h
    · simp only [List.mem_map, List.mem_filter] at h
      obtain ⟨e, _, he⟩ := h
      rw [← he]
    · simp only [List.mem_map, List.mem_filter] at h
      obtain ⟨e, _, he⟩ := h
      rw [← he]

/-- A recovered-socket list holds only `none`, so no actual socket is ever a
member of it: the stale-id computation in `broadcast` always comes up empty. -/
theorem staleIds_nil (pl sends2 : Members) :
    pl.filter (fun e => decide (some e.2.websocket ∈
      sends2.map (fun _ => (none : Option Nat)))) = [] := by
  induction pl with
  | nil => rfl
  | cons e t ih =>
    rw [List.filter_cons]
    have hno : ¬ (some e.2.websocket ∈ sends2.map (fun _ => (none : Option Nat))) := by
      intro hx
      obtain ⟨a, _, ha⟩ := List.mem_map.mp hx
      exact Option.noConfusion ha
    simp only [hno, decide_False, Bool.false_eq_true, if_false]
    exact ih

/-- Re-inserting the value already stored at a key leaves the list unchanged. -/
theorem ainsert_stored {κ α : Type} [DecidableEq κ] (l : List (κ × α)) (k : κ) (v : α)
    (h : alookup l k = some v) : ainsert l k v = l := by
  induction l with
  | nil => simp [alookup] at h
  | cons e t ih =>
    rw [alookup] at h
    by_cases he : e.1 = k
    · rw [if_pos he] at h
      injection h with h2
      have hev : e = (k, v) := Prod.ext he h2
      simp only [ainsert, if_pos he]
      rw [← hev]
    · rw [if_neg he] at h
      simp only [ainsert, if_neg he]
      rw [ih h]

/-- The fanout never mutates the registry: the failure-pruning loop never
identifies a socket, so the room map comes back unchanged. -/
theorem broadcastRun_rooms_eq (rooms : RoomMap) (rid : String) (payload : Payload)
    (skip : Option String) (f : List Nat) :
    (broadcastRun rooms rid payload skip f).rooms = rooms := by
  simp only [broadcastRun]
  split
  · rfl
  · split
    · rfl
    · dsimp only
      rw [staleIds_nil]
      simp only [List.map_nil]
      have hkeep : ((alookup rooms rid).getD []).filter
          (fun e => decide (e.1 ∉ ([] : List String))) = (alookup rooms rid).getD [] := by
        rw [List.filter_eq_self]
        intro a _
        simp
      rw [hkeep]
      split
      · rfl
      · rename_i ms hms
        rw [hms]
        simp only [Option.getD_some]
        exact ainsert_stored _ _ _ hms

/-- The fanout emits no mutation events: `stale_ids` is always empty. -/
theorem broadcastRun_muts_nil (rooms : RoomMap) (rid : String) (payload : Payload)
    (skip : Option String) (f : List Nat) :
    (broadcastRun rooms rid payload skip f).muts = [] := by
  simp only [broadcastRun]
  split
  · rfl
  · split
    · rfl
    · dsimp only
      rw [staleIds_nil]
      rfl

theorem broadcastRun_rooms_other (rooms : RoomMap) (rid : String) (payload : Payload)
    (skip : Option String) (f : List Nat) (rid2 : String) (_h : rid2 ≠ rid) :
    alookup (broadcastRun rooms rid payload skip f).rooms rid2 = alookup rooms rid2 := by
  rw [broadcastRun_rooms_eq]

theorem broadcastRun_keeps_absent (rooms : RoomMap) (rid : String) (payload : Payload)
    (skip : Option String) (f : List Nat) (p : String)
    (h : alookup ((alookup rooms rid).getD []) p = none) :
    alookup ((alookup (broadcastRun rooms rid payload skip f).rooms rid).getD []) p = none := by
  rw [broadcastRun_rooms_eq]
  exact h

/-! ### Leave / cleanup lemmas -/

theorem leavePop_no_empty (rooms : RoomMap) (r p : String)
    (h : alookup (leavePop rooms r p).1 r = some []) : alookup rooms r = some [] := by
  simp only [leavePop] at h
  split at h
  · exact h
  · rename_i ms hms
    split at h
    · split at h
      · rw [alookup_aerase_self] at h
        cases h
      · rw [alookup_ainsert_self] at h
        injection h with h2
        rename_i hemp
        exact absurd h2 hemp
    · exact h

theorem leavePop_removes (rooms : RoomMap) (r p : String) :
    alookup ((alookup (leavePop rooms r p).1 r).getD []) p = none := by
  simp only [leavePop]
  split
  · rename_i hms
    rw [hms]
    rfl
  · rename_i ms hms
    split
    · split
      · rw [alookup_aerase_self]
        rfl
      · rw [alookup_ainsert_self]
        simp only [Option.getD_some]
        exact alookup_aerase_self _ _
    · rename_i hc
      rw [hms]
      simp only [Option.getD_some]
      rcases not_and_or.mp hc with h1 | h2
      · rw [not_not.mp h1]
        rfl
      · exact Option.not_isSome_iff_eq_none.mp h2

theorem leavePop_rooms_other (rooms : RoomMap) (r p r2 : String) (h : r2 ≠ r) :
    alookup (leavePop rooms r p).1 r2 = alookup rooms r2 := by
  simp only [leavePop]
  split
  · rfl
  · split
    · split
      · exact alookup_aerase_ne _ _ _ h
      · exact alookup_ainsert_ne _ _ _ _ h
    · rfl

theorem leavePop_muts (rooms : RoomMap) (r p : String) (mu : MutEvent)
    (h : mu ∈ (leavePop rooms r p).2) :
    mu.underLock = true ∧ mu.site ≠ MutSite.broadcastPrune := by
  simp only [leavePop] at h
  split at h
  · simp at h
  · split at h
    · split at h
      · simp only [List.mem_cons, List.mem_singleton] at h
        rcases h with h | h | h
        · rw [h]; exact ⟨rfl, fun hx => by simp at hx⟩
        · rw [h]; exact ⟨rfl, fun hx => by simp at hx⟩
        · simp at h
      · simp only [List.mem_singleton] at h
        rw [h]; exact ⟨rfl, fun hx => by simp at hx⟩
    · simp at h

theorem cleanupRun_conns (st : Srv) (c : Nat) (f : List Nat) :
    (cleanupRun st c f).srv.conns = st.conns := by
  simp only [cleanupRun]
  split
  · rfl
  · split
    · rfl
    · rfl

theorem cleanupRun_removes (st : Srv) (c : Nat) (f : List Nat) (r p : String)
    (hb : alookup st.conns c = some ⟨some r, some p⟩) (hr : r ≠ "") (hp : p ≠ "") :
    alookup ((alookup (cleanupRun st c f).srv.rooms r).getD []) p = none := by
  have ht1 : truthy (some r) = true := by simp [truthy, hr]
  have ht2 : truthy (some p) = true := by simp [truthy, hp]
  simp only [cleanupRun, hb, ht1, ht2, Option.getD_some, if_pos, and_self, if_true]
  exact broadcastRun_keeps_absent _ _ _ _ _ _ (leavePop_removes st.rooms r p)

theorem cleanupRun_log_payload (st : Srv) (c : Nat) (f : List Nat) (r p : String)
    (d : Delivery) (hb : alookup st.conns c = some ⟨some r, some p⟩)
    (hd : d ∈ (cleanupRun st c f).log) : d.payload = .leaveMsg p := by
  simp only [cleanupRun, hb] at hd
  split at hd
  · exact broadcastRun_log_payload _ _ _ _ _ _ hd
  · simp at hd

theorem cleanupRun_rooms_other (st : Srv) (c : Nat) (f : List Nat) (conn : Conn) (r2 : String)
    (hb : alookup st.conns c = some conn) (h : r2 ≠ conn.room.getD "") :
    alookup (cleanupRun st c f).srv.rooms r2 = alookup st.rooms r2 := by
  simp only [cleanupRun, hb]
  split
  · rw [broadcastRun_rooms_other _ _ _ _ _ _ h]
    exact leavePop_rooms_other _ _ _ _ h
  · rfl

theorem cleanupRun_muts (st : Srv) (c : Nat) (f : List Nat) (mu : MutEvent)
    (hm : mu ∈ (cleanupRun st c f).muts) : mu.underLock = true := by
  simp only [cleanupRun] at hm
  split at hm
  · simp at hm
  · split at hm
    · rw [List.mem_append] at hm
      rcases hm with hm | hm
      · exact (leavePop_muts _ _ _ _ hm).1
      · rw [broadcastRun_muts_nil] at hm
        simp at hm
    · simp at hm

/-! ### Join / update lemmas -/

theorem joinRun_conns (st : Srv) (c : Nat) (m : JoinMsg) (f : List Nat) :
    (joinRun st c m f).srv.conns = ainsert st.conns c ⟨m.room, m.player_id⟩ := by
  simp only [joinRun]
  split
  · split
    · rw [cleanupRun_conns]
    · split
      · rw [cleanupRun_conns]
      · split
        · rw [cleanupRun_conns]
        · rfl
  · split
    · rw [cleanupRun_conns]
    · rfl

theorem joinRun_rooms_other (st : Srv) (c : Nat) (m : JoinMsg) (f : List Nat) (r2 : String)
    (h : r2 ≠ m.room.getD "") :
    alookup (joinRun st c m f).srv.rooms r2 = alookup st.rooms r2 := by
  have hclean : ∀ rs : RoomMap,
      alookup (cleanupRun ⟨rs, ainsert st.conns c ⟨m.room, m.player_id⟩⟩ c f).srv.rooms r2
        = alookup rs r2 := by
    intro rs
    exact cleanupRun_rooms_other _ _ _ ⟨m.room, m.player_id⟩ _ (alookup_ainsert_self _ _ _) h
  have hins : ∀ (l : RoomMap) (v : Members),
      alookup (ainsert l (m.room.getD "") v) r2 = alookup l r2 :=
    fun l v => alookup_ainsert_ne _ _ _ _ h
  simp only [joinRun]
  split
  · split
    · rw [hclean]
      split
      · rfl
      · exact hins _ []
    · split
      · rw [hclean]
        split
        · rfl
        · exact hins _ []
      · split
        · rw [hclean]
          split <;> simp [hins]
        · rw [broadcastRun_rooms_other _ _ _ _ _ _ h]
          split <;> simp [hins]
  · split
    · rw [hclean]
    · rfl

theorem joinRun_muts (st : Srv) (c : Nat) (m : JoinMsg) (f : List Nat) (mu : MutEvent)
    (hm : mu ∈ (joinRun st c m f).muts) : mu.underLock = true := by
  have hsetd : ∀ mu2 : MutEvent, mu2 ∈ (match alookup st.rooms (m.room.getD "") with
      | some _ => (st.rooms, ([] : List MutEvent))
      | none => (ainsert st.rooms (m.room.getD "") [], [⟨m.room.getD "", .roomCreate, true⟩])).2
      → mu2.underLock = true := by
    intro mu2 hmu2
    split at hmu2
    · simp at hmu2
    · simp only [List.mem_singleton] at hmu2
      rw [hmu2]
  simp only [joinRun] at hm
  split at hm
  · split at hm
    · rw [List.mem_append] at hm
      rcases hm with hm | hm
      · exact hsetd mu hm
      · exact cleanupRun_muts _ _ _ _ hm
    · split at hm
      · rw [List.mem_append] at hm
        rcases hm with hm | hm
        · exact hsetd mu hm
        · exact cleanupRun_muts _ _ _ _ hm
      · split at hm
        · rw [List.mem_append] at hm
          rcases hm with hm | hm
          · rw [List.mem_append] at hm
            rcases hm with hm | hm
            · exact hsetd mu hm
            · simp only [List.mem_singleton] at hm
              rw [hm]
          · exact cleanupRun_muts _ _ _ _ hm
        · rw [List.mem_append] at hm
          rcases hm with hm | hm
          · rw [List.mem_append] at hm
            rcases hm with hm | hm
            · exact hsetd mu hm
            · simp only [List.mem_singleton] at hm
              rw [hm]
          · rw [broadcastRun_muts_nil] at hm
            simp at hm
  · split at hm
    · exact cleanupRun_muts _ _ _ _ hm
    · simp at hm

theorem updateRun_conns (st : Srv) (c : Nat) (m : UpdateMsg) (f : List Nat) :
    (updateRun st c m f).srv.conns = st.conns := by
  simp only [updateRun]
  split
  · split
    · rw [cleanupRun_conns]
    · split
      · rw [cleanupRun_conns]
      · rfl
  · rfl

theorem updateRun_muts (st : Srv) (c : Nat) (m : UpdateMsg) (f : List Nat) (mu : MutEvent)
    (hm : mu ∈ (updateRun st c m f).muts) : mu.underLock = true := by
  simp only [updateRun] at hm
  split at hm
  · split at hm
    · exact cleanupRun_muts _ _ _ _ hm
    · split at hm
      · exact cleanupRun_muts _ _ _ _ hm
      · rw [List.mem_append] at hm
        rcases hm with hm | hm
        · split at hm
          · simp at hm
          · split at hm
            · simp at hm
            · simp only [List.mem_singleton] at hm
              rw [hm]
        · rw [broadcastRun_muts_nil] at hm
          simp at hm
  · simp at hm

/-- Every mutation event of one handler step is performed under the room's
lock. -/
theorem step_muts (st : Srv) (e : Event) (mu : MutEvent)
    (hm : mu ∈ (step st e).muts) : mu.underLock = true := by
  cases e with
  | join c m f => exact joinRun_muts _ _ _ _ _ hm
  | upd c m f => exact updateRun_muts _ _ _ _ _ hm
  | disconnect c f => exact cleanupRun_muts _ _ _ _ hm

/-- Every mutation event of a whole trace is performed under the room's
lock. -/
theorem runTrace_muts (tr : List Event) (st : Srv) (mu : MutEvent)
    (hm : mu ∈ (runTrace st tr).muts) : mu.underLock = true := by
  induction tr generalizing st with
  | nil => simp [runTrace] at hm
  | cons e t ih =>
    simp only [runTrace] at hm
    rw [List.mem_append] at hm
    rcases hm with hm | hm
    · exact step_muts _ _ _ hm
    · exact ih _ hm

/-- A second reference to a room's lock returns the lock created by the
first: the lazy creation loses no update. -/
theorem get_lock_stable (locks : List (String × Nat)) (rid : String) (fresh fresh2 : Nat) :
    (get_lock (get_lock locks rid fresh).2 rid fresh2).1 = (get_lock locks rid fresh).1 := by
  cases hl : alookup locks rid with
  | some l => simp [get_lock, hl]
  | none => simp [get_lock, hl, alookup_ainsert_self]

/-! ### Further support lemmas -/

theorem ainsert_ainsert {κ α : Type} [DecidableEq κ] (l : List (κ × α)) (k : κ) (v w : α) :
    ainsert (ainsert l k v) k w = ainsert l k w := by
  induction l with
  | nil => simp [ainsert]
  | cons e t ih =>
    by_cases he : e.1 = k
    · simp [ainsert, he]
    · simp [ainsert, he, ih]

theorem sweepStale_no_empty (rooms : PullMap) (rid : String) (ttl now : Int) :
    alookup (sweepStale rooms rid ttl now) rid ≠ some [] := by
  simp only [sweepStale]
  split
  · rename_i hms
    rw [hms]
    simp
  · split
    · rw [alookup_aerase_self]
      simp
    · rename_i hne
      rw [alookup_ainsert_self]
      intro hx
      injection hx with hx2
      exact hne hx2

/-- A `join` with non-empty ids, parseable coordinates and no delivery failure
leaves the registry with the new record inserted into the (possibly freshly
created) room. -/
theorem joinRun_nofail_rooms (st : Srv) (c : Nat) (r p n s col : String) (x y : Int)
    (hr : r ≠ "") (hp : p ≠ "") :
    (joinRun st c ⟨some r, some p, some n, some s, some col,
        some (.num x), some (.num y)⟩ []).srv.rooms
      = ainsert st.rooms r
          (ainsert ((alookup st.rooms r).getD []) p ⟨p, n, s, col, x, y, c⟩) := by
  have ht1 : truthy (some r) = true := by simp [truthy, hr]
  have ht2 : truthy (some p) = true := by simp [truthy, hp]
  cases hms : alookup st.rooms r with
  | none =>
    simp [joinRun, ht1, ht2, hms, floatOf, broadcastRun_nofail, ainsert_ainsert,
      alookup_ainsert_self]
  | some ms =>
    simp [joinRun, ht1, ht2, hms, floatOf, broadcastRun_nofail]

theorem alookup_filter_keep {κ α : Type} [DecidableEq κ] (l : List (κ × α)) (k : κ) (v : α)
    (q : κ × α → Bool) (hnd : keysNodup l) (h : alookup l k = some v) :
    alookup (l.filter q) k = if q (k, v) then some v else none := by
  induction l with
  | nil => simp [alookup] at h
  | cons e t ih =>
    have hnd2 : keysNodup t := by
      unfold keysNodup at hnd ⊢
      rw [List.map_cons, List.nodup_cons] at hnd
      exact hnd.2
    have hkeys : e.1 ∉ t.map Prod.fst := by
      unfold keysNodup at hnd
      rw [List.map_cons, List.nodup_cons] at hnd
      exact hnd.1
    rw [alookup] at h
    rw [List.filter_cons]
    by_cases he : e.1 = k
    · rw [if_pos he] at h
      injection h with h2
      have hev : e = (k, v) := Prod.ext he h2
      have htnone : alookup t k = none := by
        cases hx : alookup t k with
        | none => rfl
        | some w =>
          have : k ∈ t.map Prod.fst :=
            (alookup_isSome_iff_mem t k).mp (by rw [hx]; rfl)
          rw [he] at hkeys
          exact absurd this hkeys
      by_cases hqe : q e
      · rw [if_pos hqe, alookup, if_pos he, h2, ← hev, if_pos hqe]
      · rw [if_neg hqe, ← hev, if_neg hqe]
        exact alookup_none_filter _ _ _ htnone
    · rw [if_neg he] at h
      by_cases hqe : q e
      · rw [if_pos hqe, alookup, if_neg he]
        exact ih hnd2 h
      · rw [if_neg hqe]
        exact ih hnd2 h

/-- Counting recipients of a fanned-out payload: with pairwise-distinct keys,
a non-skipped member key occurs exactly once among the delivery targets. -/
theorem count_pid_filter (ms : Members) (p q : String) (pl : Payload) (hp : p ≠ "")
    (hq : q ≠ p) (hnd : (ms.map Prod.fst).Nodup) (hmem : q ∈ ms.map Prod.fst) :
    (((ms.filter (fun e => !(skipMatch (some p) e.1))).map
        (fun e => (⟨e.1, e.2.websocket, pl⟩ : Delivery))).map Delivery.pid).count q = 1 := by
  rw [List.map_map]
  have hcomp : (Delivery.pid ∘ fun e : String × Player =>
      (⟨e.1, e.2.websocket, pl⟩ : Delivery)) = Prod.fst := rfl
  rw [hcomp]
  have hfun : (fun e : String × Player => !(skipMatch (some p) e.1))
      = fun e => !(decide (e.1 = p)) := by
    funext e
    rw [skipMatch_some _ _ hp]
  rw [hfun]
  have hck := countKey_filter_ne ms p q hq
  unfold countKey at hck
  rw [hck]
  exact List.count_eq_one_of_mem hnd hmem

/-! ### Concrete traces used by the counterexamples -/

/-- A join message with only room and player id (other fields defaulted). -/
def jmsg (r p : String) : JoinMsg := ⟨some r, some p, none, none, none, none, none⟩

def traceC2 : List Event :=
  [.join 0 (jmsg "a" "P") [],
   .join 0 ⟨some "b", none, none, none, none, none, none⟩ [],
   .disconnect 0 []]

def traceC3 : List Event :=
  [.join 0 ⟨some "r3", some "P", none, none, none, some .bad, none⟩ []]

def traceC5 : List Event :=
  [.join 5 (jmsg "q1" "A") [], .join 6 (jmsg "q1" "B") [], .disconnect 5 [6]]

def traceC7 : List Event :=
  [.join 0 (jmsg "r7" "P") [], .join 1 (jmsg "r7" "Q") [],
   .join 2 (jmsg "r7" "P") [], .disconnect 2 [],
   .upd 0 ⟨some (.num 7), some (.num 8)⟩ []]

/-! ### Claim C1 -/

/-- Claim C1 confirmed.  The only member-removal paths that execute are the
disconnect/leave cleanup and the (spec-modelled) staleness sweep, and both
delete an emptied room: the `finally` block pops the room when the member
set becomes empty, and the sweep does likewise.  The delivery-failure path
performs no removal at all — `cr_frame` of a completed send coroutine is
`None`, so `broadcast` never identifies a failed socket and returns the
registry unchanged — hence it can never leave an empty room behind either.
So after the last member is removed, the room identifier is absent.  The
first conjunct states the end-to-end disconnect path: a cleanup whose bound
player is the room's last member leaves the room identifier unmapped. -/
theorem C1_theorem (st : Srv) (c : Nat) (f : List Nat) (r p : String) (ms : Members)
    (roomsB : RoomMap) (rid : String) (payload : Payload) (skip : Option String)
    (fb : List Nat) (roomsPull : PullMap) (ttl now : Int)
    (hb : alookup st.conns c = some ⟨some r, some p⟩) (hr : r ≠ "") (hp : p ≠ "")
    (hms : alookup st.rooms r = some ms) (hne : ms ≠ [])
    (hpm : (alookup ms p).isSome) (hemp : aerase ms p = []) :
    alookup (cleanupRun st c f).srv.rooms r = none ∧
    (broadcastRun roomsB rid payload skip fb).rooms = roomsB ∧
    alookup (sweepStale roomsPull r ttl now) r ≠ some [] := by
  refine ⟨?_, broadcastRun_rooms_eq roomsB rid payload skip fb,
    sweepStale_no_empty roomsPull r ttl now⟩
  have ht1 : truthy (some r) = true := by simp [truthy, hr]
  have ht2 : truthy (some p) = true := by simp [truthy, hp]
  simp only [cleanupRun, hb, ht1, ht2, Option.getD_some, if_pos, and_self, if_true]
  rw [broadcastRun_rooms_eq]
  simp only [leavePop, hms]
  rw [if_pos (And.intro hne hpm), if_pos hemp]
  exact alookup_aerase_self _ _

/-- Witness for C1_theorem at a concrete input. -/
theorem C1_witness :
    alookup ([(0, Conn.mk (some "r") (some "p"))] : List (Nat × Conn)) 0
        = some ⟨some "r", some "p"⟩ ∧
    alookup ([("r", [("p", ⟨"p", "n", "s", "c", 0, 0, 0⟩)])] : RoomMap) "r"
        = some [("p", ⟨"p", "n", "s", "c", 0, 0, 0⟩)] ∧
    aerase [("p", (⟨"p", "n", "s", "c", 0, 0, 0⟩ : Player))] "p" = [] ∧
    (alookup (cleanupRun ⟨[("r", [("p", ⟨"p", "n", "s", "c", 0, 0, 0⟩)])],
        [(0, ⟨some "r", some "p"⟩)]⟩ 0 []).srv.rooms "r" = none ∧
     (broadcastRun [("b", [("q", ⟨"q", "n", "s", "c", 0, 0, 1⟩)])] "b"
        (.leaveMsg "z") none [1]).rooms = [("b", [("q", ⟨"q", "n", "s", "c", 0, 0, 1⟩)])] ∧
     alookup (sweepStale [] "r" 0 0) "r" ≠ some []) :=
  ⟨by decide, by decide, by decide,
   C1_theorem ⟨[("r", [("p", ⟨"p", "n", "s", "c", 0, 0, 0⟩)])], [(0, ⟨some "r", some "p"⟩)]⟩
     0 [] "r" "p" [("p", ⟨"p", "n", "s", "c", 0, 0, 0⟩)]
     [("b", [("q", ⟨"q", "n", "s", "c", 0, 0, 1⟩)])] "b" (.leaveMsg "z") none [1] [] 0 0
     (by decide) (by decide) (by decide) (by decide) (by decide) (by decide) (by decide)⟩

/-! ### Claim C2 -/

/-- Claim C2 as stated is false.  In `traceC2`, connection 0 joins room "a"
as "P" (JOINED state), then sends a second join naming room "b" with no
player_id: the handler overwrites its locals before validating, replies with
an error, and on the subsequent disconnect the `finally` block sees a falsy
`player_id` and performs no cleanup: P's record is still in room "a" and no
leave notification was ever broadcast. -/
theorem C2_counterexample :
    alookup ((alookup (runTrace Srv.start traceC2).srv.rooms "a").getD []) "P"
        = some ⟨"P", "player", "square", "#00ff00", 120, 120, 0⟩ ∧
    (runTrace Srv.start traceC2).log.filter
        (fun d => match d.payload with | .leaveMsg _ => true | _ => false) = [] := by
  decide

/-- Claim C2 amended: cleanup on connection close is driven by the
connection's current locals, which every join attempt overwrites before
validation; when those locals hold a truthy (room, player) pair, the handler
does remove that player's record from that room and everything it then sends
is the leave notification for that player. -/
theorem C2_theorem (st : Srv) (c : Nat) (f : List Nat) (r p : String)
    (hb : alookup st.conns c = some ⟨some r, some p⟩) (hr : r ≠ "") (hp : p ≠ "") :
    alookup ((alookup (cleanupRun st c f).srv.rooms r).getD []) p = none ∧
    ∀ d ∈ (cleanupRun st c f).log, d.payload = .leaveMsg p :=
  ⟨cleanupRun_removes st c f r p hb hr hp,
   fun d hd => cleanupRun_log_payload st c f r p d hb hd⟩

/-- Witness for C2_theorem at a concrete input. -/
theorem C2_witness :
    alookup ([(0, Conn.mk (some "r") (some "p"))] : List (Nat × Conn)) 0
        = some ⟨some "r", some "p"⟩ ∧
    (alookup ((alookup (cleanupRun
        ⟨[("r", [("p", ⟨"p", "n", "s", "c", 0, 0, 0⟩)])], [(0, ⟨some "r", some "p"⟩)]⟩
        0 []).srv.rooms "r").getD []) "p" = none ∧
     ∀ d ∈ (cleanupRun
        ⟨[("r", [("p", ⟨"p", "n", "s", "c", 0, 0, 0⟩)])], [(0, ⟨some "r", some "p"⟩)]⟩
        0 []).log, d.payload = .leaveMsg "p") :=
  ⟨by decide,
   C2_theorem ⟨[("r", [("p", ⟨"p", "n", "s", "c", 0, 0, 0⟩)])], [(0, ⟨some "r", some "p"⟩)]⟩
     0 [] "r" "p" (by decide) (by decide) (by decide)⟩

/-! ### Claim C3 -/

/-- Claim C3 as stated is false.  In `traceC3`, a join for fresh room "r3"
with a coordinate that `float` rejects mutates the registry before failing:
`rooms.setdefault(room_id, {})` (line 114) has already created the room when
`float(msg.get("x", 120))` raises, so afterwards the registry contains "r3"
(empty), and no error message was delivered (the exception terminates the
connection instead of producing an InvalidArgument reply). -/
theorem C3_counterexample :
    alookup (runTrace Srv.start traceC3).srv.rooms "r3" = some [] ∧
    (runTrace Srv.start traceC3).log = [] := by decide

/-- Claim C3 amended: a join whose room or player_id is missing or empty
fails before any mutation — the registry is untouched, no mutation event is
emitted, and the only reply is the error message, with the connection
staying open; but a join whose coordinate fails float parsing first creates
the room entry via setdefault and then terminates the connection without an
error reply, and an update received with falsy locals is silently ignored. -/
theorem C3_theorem (st : Srv) (c : Nat) (m : JoinMsg) (f : List Nat)
    (h : truthy m.room = false ∨ truthy m.player_id = false) (hc : c ∉ f) :
    (joinRun st c m f).srv.rooms = st.rooms ∧
    (joinRun st c m f).log = [⟨"", c, .errorMsg "room and player_id required"⟩] ∧
    (joinRun st c m f).muts = [] := by
  have hcond : ¬ (truthy m.room = true ∧ truthy m.player_id = true) := by
    rcases h with h | h
    · intro hx
      rw [h] at hx
      exact absurd hx.1 (by simp)
    · intro hx
      rw [h] at hx
      exact absurd hx.2 (by simp)
  simp only [joinRun, if_neg hcond, if_neg hc]
  simp

/-- Witness for C3_theorem at a concrete input. -/
theorem C3_witness :
    (truthy (some "r") = false ∨ truthy (none : Option String) = false) ∧
    ((joinRun Srv.start 0 ⟨some "r", none, none, none, none, none, none⟩ []).srv.rooms
        = Srv.start.rooms ∧
     (joinRun Srv.start 0 ⟨some "r", none, none, none, none, none, none⟩ []).log
        = [⟨"", 0, .errorMsg "room and player_id required"⟩] ∧
     (joinRun Srv.start 0 ⟨some "r", none, none, none, none, none, none⟩ []).muts = []) :=
  ⟨by decide,
   C3_theorem Srv.start 0 ⟨some "r", none, none, none, none, none, none⟩ []
     (by decide) (by decide)⟩

/-! ### Claim C5 -/

/-- Claim C5 is a code bug: the claim (spec sections 4.2 and 7) and the
code's own comment ("Cleanup any failed sockets") say a failed delivery is
handled as an implicit Leave of the affected player, but the removal never
happens.  In `traceC5`, A and B join room "q1"; A disconnects and the leave
broadcast to B fails.  The handler tries to recover the failed socket with
`task.get_coro().cr_frame.f_locals.get("ws")` (src/app.py:67), but the send
coroutine has already completed and its `cr_frame` is `None`, so the bare
`except` yields `ws = None`, `stale_ids` stays empty and the pop on line 76
never runs: B's record is still in the room afterwards, contradicting
"removed exactly as if they had sent an explicit Leave".  (The no-error half
of the claim does hold: the fanout completes normally.) -/
theorem C5_theorem :
    alookup (runTrace Srv.start traceC5).srv.rooms "q1"
      = some [("B", ⟨"B", "player", "square", "#00ff00", 120, 120, 6⟩)] := by decide

/-! ### Claim C8 -/

/-- Claim C8 confirmed: every registry mutation that executes does so while
holding the room's lock.  The join, update and disconnect-cleanup mutations
are all inside `async with get_lock(room_id)` blocks; the only unlocked
mutation site in the source, the failure-pruning loop of `broadcast`
(src/app.py:72-76), is dead code — the failed-socket recovery always yields
`None`, so `stale_ids` is empty and no prune ever runs (the model emits no
mutation event for it).  The lock itself is created lazily by `get_lock`
with no suspension point between the lookup and the store, so a second
reference always returns the lock created by the first — no lost update on
creation. -/
theorem C8_theorem (st : Srv) (tr : List Event) (mu : MutEvent)
    (locks : List (String × Nat)) (rid : String) (fresh fresh2 : Nat)
    (hm : mu ∈ (runTrace st tr).muts) :
    mu.underLock = true ∧
    (get_lock (get_lock locks rid fresh).2 rid fresh2).1 = (get_lock locks rid fresh).1 :=
  ⟨runTrace_muts tr st mu hm, get_lock_stable locks rid fresh fresh2⟩

/-- Witness for C8_theorem at a concrete input. -/
theorem C8_witness :
    (⟨"r", .roomCreate, true⟩ : MutEvent)
        ∈ (runTrace Srv.start [.join 0 (jmsg "r" "P") []]).muts ∧
    ((⟨"r", MutSite.roomCreate, true⟩ : MutEvent).underLock = true ∧
     (get_lock (get_lock [] "s" 7).2 "s" 9).1 = (get_lock ([] : List (String × Nat)) "s" 7).1) :=
  ⟨by decide,
   C8_theorem Srv.start [.join 0 (jmsg "r" "P") []] ⟨"r", .roomCreate, true⟩ [] "s" 7 9
     (by decide)⟩

/-! ### Claim C10 -/

/-- Claim C10 confirmed: a second valid join to a different room B rebinds
the connection's locals to (B, pB), leaves room A's entry in the registry
untouched, and the later disconnect cleanup (which uses the current locals)
also leaves room A untouched — the record left behind in room A is never
removed. -/
theorem C10_theorem (st : Srv) (c : Nat) (A B pB : String) (n s col : Option String)
    (x y : Int) (f f2 : List Nat) (hAB : A ≠ B) (_hB : B ≠ "") (_hp : pB ≠ "") :
    alookup (joinRun st c ⟨some B, some pB, n, s, col,
        some (.num x), some (.num y)⟩ f).srv.conns c = some ⟨some B, some pB⟩ ∧
    alookup (joinRun st c ⟨some B, some pB, n, s, col,
        some (.num x), some (.num y)⟩ f).srv.rooms A = alookup st.rooms A ∧
    alookup (cleanupRun (joinRun st c ⟨some B, some pB, n, s, col,
        some (.num x), some (.num y)⟩ f).srv c f2).srv.rooms A = alookup st.rooms A := by
  have hc1 : alookup (joinRun st c ⟨some B, some pB, n, s, col,
      some (.num x), some (.num y)⟩ f).srv.conns c = some ⟨some B, some pB⟩ := by
    rw [joinRun_conns]
    exact alookup_ainsert_self _ _ _
  have hA2 : A ≠ (JoinMsg.mk (some B) (some pB) n s col
      (some (.num x)) (some (.num y))).room.getD "" := by simpa using hAB
  have h2 := joinRun_rooms_other st c
    ⟨some B, some pB, n, s, col, some (.num x), some (.num y)⟩ f A hA2
  have h3 := cleanupRun_rooms_other (joinRun st c ⟨some B, some pB, n, s, col,
      some (.num x), some (.num y)⟩ f).srv c f2 ⟨some B, some pB⟩ A hc1 (by simpa using hAB)
  exact ⟨hc1, h2, h3.trans h2⟩

/-- Witness for C10_theorem at a concrete input. -/
theorem C10_witness :
    "a" ≠ "b" ∧
    (alookup (joinRun Srv.start 0 ⟨some "b", some "p", none, none, none,
        some (.num 1), some (.num 2)⟩ []).srv.conns 0 = some ⟨some "b", some "p"⟩ ∧
     alookup (joinRun Srv.start 0 ⟨some "b", some "p", none, none, none,
        some (.num 1), some (.num 2)⟩ []).srv.rooms "a" = alookup Srv.start.rooms "a" ∧
     alookup (cleanupRun (joinRun Srv.start 0 ⟨some "b", some "p", none, none, none,
        some (.num 1), some (.num 2)⟩ []).srv 0 []).srv.rooms "a"
       = alookup Srv.start.rooms "a") :=
  ⟨by decide,
   C10_theorem Srv.start 0 "a" "b" "p" none none none 1 2 [] []
     (by decide) (by decide) (by decide)⟩

/-! ### Claim C4 -/

/-- Claim C4 confirmed: joining the same (room, player) twice (valid ids,
parseable coordinates, no delivery failures) leaves exactly one record for
that player, carrying the second join's attributes (and the second
connection's handle), and the second join does not change the room's member
count.  The count hypothesis states that the starting state, like every
state reachable from an empty registry, has at most one binding per key. -/
theorem C4_theorem (st : Srv) (c₁ c₂ : Nat) (r p n₁ s₁ col₁ n₂ s₂ col₂ : String)
    (x₁ y₁ x₂ y₂ : Int) (hr : r ≠ "") (hp : p ≠ "")
    (hcount : countKey ((alookup st.rooms r).getD []) p ≤ 1) :
    alookup ((alookup (joinRun (joinRun st c₁ ⟨some r, some p, some n₁, some s₁, some col₁,
          some (.num x₁), some (.num y₁)⟩ []).srv c₂ ⟨some r, some p, some n₂, some s₂,
          some col₂, some (.num x₂), some (.num y₂)⟩ []).srv.rooms r).getD []) p
        = some ⟨p, n₂, s₂, col₂, x₂, y₂, c₂⟩ ∧
    countKey ((alookup (joinRun (joinRun st c₁ ⟨some r, some p, some n₁, some s₁, some col₁,
          some (.num x₁), some (.num y₁)⟩ []).srv c₂ ⟨some r, some p, some n₂, some s₂,
          some col₂, some (.num x₂), some (.num y₂)⟩ []).srv.rooms r).getD []) p = 1 ∧
    ((alookup (joinRun (joinRun st c₁ ⟨some r, some p, some n₁, some s₁, some col₁,
          some (.num x₁), some (.num y₁)⟩ []).srv c₂ ⟨some r, some p, some n₂, some s₂,
          some col₂, some (.num x₂), some (.num y₂)⟩ []).srv.rooms r).getD []).length
        = ((alookup (joinRun st c₁ ⟨some r, some p, some n₁, some s₁, some col₁,
          some (.num x₁), some (.num y₁)⟩ []).srv.rooms r).getD []).length := by
  have h2 := joinRun_nofail_rooms (joinRun st c₁ ⟨some r, some p, some n₁, some s₁, some col₁,
    some (.num x₁), some (.num y₁)⟩ []).srv c₂ r p n₂ s₂ col₂ x₂ y₂ hr hp
  have h1 := joinRun_nofail_rooms st c₁ r p n₁ s₁ col₁ x₁ y₁ hr hp
  rw [h2, h1]
  refine ⟨?_, ?_, ?_⟩
  · simp only [alookup_ainsert_self, Option.getD_some]
  · simp only [alookup_ainsert_self, Option.getD_some]
    rw [countKey_ainsert_self, countKey_ainsert_self]
    rcases Nat.le_one_iff_eq_zero_or_eq_one.mp hcount with h0 | h0
    · rw [h0]
      decide
    · rw [h0]
      decide
  · simp only [alookup_ainsert_self, Option.getD_some]
    rw [length_ainsert, alookup_ainsert_self]
    simp

/-- Witness for C4_theorem at a concrete input. -/
theorem C4_witness :
    "r" ≠ "" ∧ "p" ≠ "" ∧ countKey ((alookup Srv.start.rooms "r").getD []) "p" ≤ 1 ∧
    (alookup ((alookup (joinRun (joinRun Srv.start 0 ⟨some "r", some "p", some "n1",
          some "s1", some "c1", some (.num 1), some (.num 2)⟩ []).srv 1
          ⟨some "r", some "p", some "n2", some "s2", some "c2",
           some (.num 3), some (.num 4)⟩ []).srv.rooms "r").getD []) "p"
        = some ⟨"p", "n2", "s2", "c2", 3, 4, 1⟩ ∧
     countKey ((alookup (joinRun (joinRun Srv.start 0 ⟨some "r", some "p", some "n1",
          some "s1", some "c1", some (.num 1), some (.num 2)⟩ []).srv 1
          ⟨some "r", some "p", some "n2", some "s2", some "c2",
           some (.num 3), some (.num 4)⟩ []).srv.rooms "r").getD []) "p" = 1 ∧
     ((alookup (joinRun (joinRun Srv.start 0 ⟨some "r", some "p", some "n1",
          some "s1", some "c1", some (.num 1), some (.num 2)⟩ []).srv 1
          ⟨some "r", some "p", some "n2", some "s2", some "c2",
           some (.num 3), some (.num 4)⟩ []).srv.rooms "r").getD []).length
        = ((alookup (joinRun Srv.start 0 ⟨some "r", some "p", some "n1",
          some "s1", some "c1", some (.num 1), some (.num 2)⟩ []).srv.rooms "r").getD
          []).length) :=
  ⟨by decide, by decide, by decide,
   C4_theorem Srv.start 0 1 "r" "p" "n1" "s1" "c1" "n2" "s2" "c2" 1 2 3 4
     (by decide) (by decide) (by decide)⟩

/-! ### Claim C6 -/

/-- Claim C6 confirmed: when a joined connection sends an update (no delivery
failures), every delivery of the resulting fanout carries exactly the update
payload and none of them targets the sender's player id; and every other
member of the room (distinct keys) receives it exactly once. -/
theorem C6_theorem (st : Srv) (c : Nat) (r p : String) (x y : Int)
    (hb : alookup st.conns c = some ⟨some r, some p⟩) (hr : r ≠ "") (hp : p ≠ "")
    (hnd : keysNodup ((alookup st.rooms r).getD [])) :
    (∀ d ∈ (updateRun st c ⟨some (.num x), some (.num y)⟩ []).log,
        d.payload = .updateMsg p x y ∧ d.pid ≠ p) ∧
    (∀ q : String, q ≠ p → (alookup ((alookup st.rooms r).getD []) q).isSome →
        ((updateRun st c ⟨some (.num x), some (.num y)⟩ []).log.map Delivery.pid).count q
          = 1) := by
  have ht1 : truthy (some r) = true := by simp [truthy, hr]
  have ht2 : truthy (some p) = true := by simp [truthy, hp]
  have hlog : ∃ ms1 : Members,
      (updateRun st c ⟨some (.num x), some (.num y)⟩ []).log
        = (ms1.filter (fun e => !(skipMatch (some p) e.1))).map
            (fun e => (⟨e.1, e.2.websocket, Payload.updateMsg p x y⟩ : Delivery)) ∧
      ms1.map Prod.fst = ((alookup st.rooms r).getD []).map Prod.fst := by
    cases hms : alookup st.rooms r with
    | none =>
      refine ⟨[], ?_, by rfl⟩
      simp [updateRun, hb, ht1, ht2, floatOf, hms, broadcastRun_nofail]
    | some ms =>
      cases hpl : alookup ms p with
      | none =>
        refine ⟨ms, ?_, by rfl⟩
        simp [updateRun, hb, ht1, ht2, floatOf, hms, hpl, broadcastRun_nofail]
      | some pl =>
        refine ⟨ainsert ms p { pl with x := x, y := y }, ?_, ?_⟩
        · simp [updateRun, hb, ht1, ht2, floatOf, hms, hpl, broadcastRun_nofail,
            alookup_ainsert_self]
        · rw [keys_ainsert]
          simp [hpl]
  obtain ⟨ms1, hlg, hkeys⟩ := hlog
  constructor
  · intro d hd
    rw [hlg] at hd
    simp only [List.mem_map, List.mem_filter] at hd
    obtain ⟨e, ⟨_, hes⟩, hde⟩ := hd
    have hep : e.1 ≠ p := by
      rw [skipMatch_some _ _ hp] at hes
      simpa using hes
    constructor
    · rw [← hde]
    · rw [← hde]
      exact hep
  · intro q hqp hqs
    have hnd1 : (ms1.map Prod.fst).Nodup := by
      rw [hkeys]
      exact hnd
    have hmem1 : q ∈ ms1.map Prod.fst := by
      rw [hkeys]
      exact (alookup_isSome_iff_mem _ _).mp hqs
    rw [hlg]
    exact count_pid_filter ms1 p q (Payload.updateMsg p x y) hp hqp hnd1 hmem1

/-- Witness for C6_theorem at a concrete input. -/
theorem C6_witness :
    alookup ([(0, Conn.mk (some "r") (some "p"))] : List (Nat × Conn)) 0
        = some ⟨some "r", some "p"⟩ ∧
    keysNodup ((alookup ([("r", [("p", ⟨"p", "n", "s", "c", 0, 0, 0⟩),
        ("q", ⟨"q", "n", "s", "c", 5, 5, 1⟩)])] : RoomMap) "r").getD []) ∧
    ((∀ d ∈ (updateRun ⟨[("r", [("p", ⟨"p", "n", "s", "c", 0, 0, 0⟩),
          ("q", ⟨"q", "n", "s", "c", 5, 5, 1⟩)])], [(0, ⟨some "r", some "p"⟩)]⟩ 0
          ⟨some (.num 7), some (.num 8)⟩ []).log,
        d.payload = .updateMsg "p" 7 8 ∧ d.pid ≠ "p") ∧
     (∀ q : String, q ≠ "p" →
        (alookup ((alookup (⟨[("r", [("p", ⟨"p", "n", "s", "c", 0, 0, 0⟩),
            ("q", ⟨"q", "n", "s", "c", 5, 5, 1⟩)])], [(0, ⟨some "r", some "p"⟩)]⟩ :
            Srv).rooms "r").getD []) q).isSome →
        ((updateRun ⟨[("r", [("p", ⟨"p", "n", "s", "c", 0, 0, 0⟩),
            ("q", ⟨"q", "n", "s", "c", 5, 5, 1⟩)])], [(0, ⟨some "r", some "p"⟩)]⟩ 0
            ⟨some (.num 7), some (.num 8)⟩ []).log.map Delivery.pid).count q = 1)) :=
  ⟨by decide, by decide,
   C6_theorem ⟨[("r", [("p", ⟨"p", "n", "s", "c", 0, 0, 0⟩),
       ("q", ⟨"q", "n", "s", "c", 5, 5, 1⟩)])], [(0, ⟨some "r", some "p"⟩)]⟩ 0 "r" "p" 7 8
     (by decide) (by decide) (by decide) (by decide)⟩

/-! ### Claim C7 -/

/-- Claim C7 as stated is false.  In `traceC7`, connection 0 joins room
"r7" as P and connection 1 as Q; then connection 2 joins as the same player
id P (the reconnect/refresh flow: it silently replaces P's record), and
connection 2 disconnects, whose cleanup removes P's record from the room.
Connection 0 is still open and still bound to ("r7","P"), but P is now
absent from the room.  Its update finds no record — the registry is indeed
not mutated — but the broadcast on line 150 runs unconditionally, so Q
receives `{type: "update", player: {player_id: "P", x: 7, y: 8}}`,
contradicting "nothing is delivered to other members of the room". -/
theorem C7_counterexample :
    alookup ((alookup (runTrace Srv.start traceC7).srv.rooms "r7").getD []) "P" = none ∧
    (⟨"Q", 1, .updateMsg "P" 7 8⟩ : Delivery) ∈ (runTrace Srv.start traceC7).log := by
  decide

/-- Claim C7 amended: an update from a connection whose bound player is
absent from the bound room performs no registry mutation (state and mutation
log unchanged) — but the update payload is still broadcast to every current
member of the room other than the bound player id. -/
theorem C7_theorem (st : Srv) (c : Nat) (r p : String) (x y : Int)
    (hb : alookup st.conns c = some ⟨some r, some p⟩) (hr : r ≠ "") (hp : p ≠ "")
    (habs : alookup ((alookup st.rooms r).getD []) p = none) :
    (updateRun st c ⟨some (.num x), some (.num y)⟩ []).srv = st ∧
    (updateRun st c ⟨some (.num x), some (.num y)⟩ []).muts = [] ∧
    (updateRun st c ⟨some (.num x), some (.num y)⟩ []).log =
      (((alookup st.rooms r).getD []).filter (fun e => !(skipMatch (some p) e.1))).map
        (fun e => ⟨e.1, e.2.websocket, Payload.updateMsg p x y⟩) := by
  have ht1 : truthy (some r) = true := by simp [truthy, hr]
  have ht2 : truthy (some p) = true := by simp [truthy, hp]
  cases hms : alookup st.rooms r with
  | none =>
    refine ⟨?_, ?_, ?_⟩ <;>
      simp [updateRun, hb, ht1, ht2, floatOf, hms, broadcastRun_nofail]
  | some ms =>
    have habs2 : alookup ms p = none := by
      rw [hms] at habs
      simpa using habs
    refine ⟨?_, ?_, ?_⟩ <;>
      simp [updateRun, hb, ht1, ht2, floatOf, hms, habs2, broadcastRun_nofail]

/-- Witness for C7_theorem at a concrete input. -/
theorem C7_witness :
    alookup ([(0, Conn.mk (some "r") (some "p"))] : List (Nat × Conn)) 0
        = some ⟨some "r", some "p"⟩ ∧
    alookup ((alookup (⟨[("r", [("q", ⟨"q", "n", "s", "c", 5, 5, 1⟩)])],
        [(0, ⟨some "r", some "p"⟩)]⟩ : Srv).rooms "r").getD []) "p" = none ∧
    ((updateRun ⟨[("r", [("q", ⟨"q", "n", "s", "c", 5, 5, 1⟩)])],
        [(0, ⟨some "r", some "p"⟩)]⟩ 0 ⟨some (.num 7), some (.num 8)⟩ []).srv
      = ⟨[("r", [("q", ⟨"q", "n", "s", "c", 5, 5, 1⟩)])], [(0, ⟨some "r", some "p"⟩)]⟩ ∧
     (updateRun ⟨[("r", [("q", ⟨"q", "n", "s", "c", 5, 5, 1⟩)])],
        [(0, ⟨some "r", some "p"⟩)]⟩ 0 ⟨some (.num 7), some (.num 8)⟩ []).muts = [] ∧
     (updateRun ⟨[("r", [("q", ⟨"q", "n", "s", "c", 5, 5, 1⟩)])],
        [(0, ⟨some "r", some "p"⟩)]⟩ 0 ⟨some (.num 7), some (.num 8)⟩ []).log =
       (((alookup (⟨[("r", [("q", ⟨"q", "n", "s", "c", 5, 5, 1⟩)])],
          [(0, ⟨some "r", some "p"⟩)]⟩ : Srv).rooms "r").getD []).filter
            (fun e => !(skipMatch (some "p") e.1))).map
          (fun e => ⟨e.1, e.2.websocket, Payload.updateMsg "p" 7 8⟩)) :=
  ⟨by decide, by decide,
   C7_theorem ⟨[("r", [("q", ⟨"q", "n", "s", "c", 5, 5, 1⟩)])],
       [(0, ⟨some "r", some "p"⟩)]⟩ 0 "r" "p" 7 8
     (by decide) (by decide) (by decide) (by decide)⟩

/-! ### Claim C9 -/

/-- Claim C9 confirmed against the spec-modelled pull registry: a `state`
read sweeps first, so a member whose `last_seen` is older than `now - ttl`
is absent from the resulting view, and one whose `last_seen` is not older is
present unchanged. -/
theorem C9_theorem (rooms : PullMap) (rid : String) (ttl now : Int) (q : String)
    (pr : PullRecord) (hnd : keysNodup ((alookup rooms rid).getD []))
    (hq : alookup ((alookup rooms rid).getD []) q = some pr) :
    alookup (pullStateMembers rooms rid ttl now) q
      = if pr.last_seen < now - ttl then none else some pr := by
  obtain ⟨ms, hms⟩ : ∃ ms, alookup rooms rid = some ms := by
    cases hrm : alookup rooms rid with
    | none =>
      rw [hrm] at hq
      simp [alookup] at hq
    | some ms => exact ⟨ms, rfl⟩
  have hq2 : alookup ms q = some pr := by
    rw [hms] at hq
    simpa using hq
  have hnd2 : keysNodup ms := by
    rw [hms] at hnd
    simpa using hnd
  simp only [pullStateMembers, sweepStale, hms]
  split
  · rename_i hemp
    have hmem : (q, pr) ∈ ms := alookup_mem _ _ _ hq2
    have hlt : pr.last_seen < now - ttl := by
      by_contra hk
      have hin : (q, pr) ∈ ms.filter (fun e => decide (¬ e.2.last_seen < now - ttl)) :=
        List.mem_filter.mpr ⟨hmem, decide_eq_true hk⟩
      rw [hemp] at hin
      simp at hin
    rw [alookup_aerase_self, if_pos hlt]
    rfl
  · rw [alookup_ainsert_self]
    simp only [Option.getD_some]
    rw [alookup_filter_keep ms q pr _ hnd2 hq2]
    by_cases hlt : pr.last_seen < now - ttl
    · rw [if_pos hlt, if_neg (fun hx => (of_decide_eq_true hx) hlt)]
    · rw [if_pos (decide_eq_true hlt), if_neg hlt]

/-- Witness for C9_theorem at a concrete input. -/
theorem C9_witness :
    keysNodup ((alookup ([("r", [("q", ⟨"q", "n", "s", "c", 1, 2, 0⟩)])] : PullMap)
        "r").getD []) ∧
    alookup (pullStateMembers [("r", [("q", ⟨"q", "n", "s", "c", 1, 2, 0⟩)])] "r" 10 5) "q"
      = if (0 : Int) < 5 - 10 then none
        else some (⟨"q", "n", "s", "c", 1, 2, 0⟩ : PullRecord) :=
  ⟨by decide,
   C9_theorem [("r", [("q", ⟨"q", "n", "s", "c", 1, 2, 0⟩)])] "r" 10 5 "q"
     ⟨"q", "n", "s", "c", 1, 2, 0⟩ (by decide) (by decide)⟩

end GamePos
